import Mathlib

/-!
Shallow embedding of the core wallet engine of a Cashu ecash client
(`src/stores/wallet.ts` of the repository), together with proofs of the
frozen claims about it.

JS `number` values that the source uses as integers (amounts, counters)
are embedded as `Int`/`Nat`; the float arithmetic of the multi-path melt
allocation is embedded as exact rational arithmetic (`ℚ`); JS 32-bit
bitwise operations are embedded via `Nat.testBit` on the low 32 bits.
Network calls and the cryptographic library (`@cashu/cashu-ts`) are
passed in as explicit oracle parameters returning `Except`.
-/

namespace CashuWallet

/-- One spendable token atom as held in the wallet's proof store
(`WalletProof` of `stores/mints.ts`): `{amount, secret, id, reserved, quote}`. -/
structure WalletProof where
  amount : Int
  secret : String
  id : String
  reserved : Bool
  quote : Option String
deriving Repr, DecidableEq

/-- Entry of the persistent keyset-counter store (`wallet.ts` lines 75-78). -/
structure KeysetCounter where
  id : String
  counter : Int
deriving Repr, DecidableEq

/-- `keysetCounter(id)` (`wallet.ts` lines 185-193): returns the counter of the
first entry with the given id; if absent, pushes `{id, counter: 1}` and
returns 1.  The mutated store is returned alongside the value. -/
def keysetCounter : List KeysetCounter → String → Int × List KeysetCounter
  | [], id => (1, [⟨id, 1⟩])
  | c :: cs, id =>
    if c.id = id then (c.counter, c :: cs)
    else
      let r := keysetCounter cs id
      (r.1, c :: r.2)

/-- `increaseKeysetCounter(id, by)` (`wallet.ts` lines 194-202): adds `b` to
the first entry with the given id; if absent, pushes `{id, counter: b}`. -/
def increaseKeysetCounter : List KeysetCounter → String → Int → List KeysetCounter
  | [], id, b => [⟨id, b⟩]
  | c :: cs, id, b =>
    if c.id = id then ⟨c.id, c.counter + b⟩ :: cs
    else c :: increaseKeysetCounter cs id b

/-- The value a `keysetCounter(id)` read reports: the stored counter,
or 1 when the id is absent (the value the read would create and return). -/
def counterOf (cs : List KeysetCounter) (id : String) : Int :=
  match cs.find? (fun c => c.id = id) with
  | some c => c.counter
  | none => 1

/-- Lookup of a raw stored counter entry, without the creating side effect. -/
def lookupCounter (cs : List KeysetCounter) (id : String) : Option Int :=
  (cs.find? (fun c => c.id = id)).map (fun c => c.counter)

/-- `splitAmount(value)` (`wallet.ts` lines 249-259): for each `i < 32` with
`(value & (1 << i)) !== 0` (under JS `ToInt32`, this tests bit `i` of
`value`), push `2^i`.  Chunks appear in increasing bit order. -/
def splitAmount (value : Nat) : List Nat :=
  ((List.range 32).filter (fun i => value.testBit i)).map (fun i => 2 ^ i)

/-- Sum of a list of proofs' amounts (`proofsStore.sumProofs`, and the inline
`reduce((s, t) => (s += t.amount), 0)` of `wallet.ts`). -/
def sumProofs (proofs : List WalletProof) : Int :=
  (proofs.map (fun p => p.amount)).sum

/-- Modelled from the spec: `unreserved(proofs)` of the proof store
(`proofsStore.getUnreservedProofs`, whose source is outside `src/`):
`reserved=true` excludes a proof from spendable selection. -/
def getUnreservedProofs (proofs : List WalletProof) : List WalletProof :=
  proofs.filter (fun p => !p.reserved)

/-- Modelled from the spec: `set_reserved(proofs, bool, quote_id?)` of the
proof store (outside `src/`): sets the `reserved` flag (and the binding
`quote`) of every store proof whose `secret` appears among `ps`
(proof identity is the `secret`). -/
def setReserved (store ps : List WalletProof) (r : Bool) (q : Option String) :
    List WalletProof :=
  store.map (fun p =>
    if ps.any (fun t => t.secret = p.secret) then
      { p with reserved := r, quote := q }
    else p)

/-- Modelled from the spec: `add(proofs)` of the proof store (outside `src/`). -/
def addProofs (store ps : List WalletProof) : List WalletProof :=
  store ++ ps

/-- Modelled from the spec: `remove(proofs)` of the proof store (outside
`src/`); proof identity is the `secret`. -/
def removeProofs (store ps : List WalletProof) : List WalletProof :=
  store.filter (fun p => !(ps.any (fun t => t.secret = p.secret)))

/-- Result shape of the cashu-ts `selectProofsToSend` library selector. -/
structure SelectResult where
  send : List WalletProof
  keep : List WalletProof

/-- `coinSelect(proofs, amount, includeFees)` (`wallet.ts` lines 281-299),
parametrised by the external library selector `wallet.selectProofsToSend`:
return `[]` when the proofs cannot cover `amount`; otherwise return the
selector's `send` list with every proof's `reserved` flag cleared. -/
def coinSelect (selectProofsToSend : List WalletProof → Int → Bool → SelectResult)
    (proofs : List WalletProof) (amount : Int) (includeFees : Bool) :
    List WalletProof :=
  if (proofs.map (fun p => p.amount)).sum < amount then []
  else
    ((selectProofsToSend proofs amount includeFees).send).map
      (fun p => { p with reserved := false })

/-- `spendableProofs(proofs, amount)` (`wallet.ts` lines 300-318): filter to
unreserved proofs; throw `"Balance too low"` when their sum is below
`amount`; otherwise return them. -/
def spendableProofs (proofs : List WalletProof) (amount : Int) :
    Except String (List WalletProof) :=
  let sp := getUnreservedProofs proofs
  if sumProofs sp < amount then Except.error "Balance too low"
  else Except.ok sp

/-- Whether `pat` is an initial segment of `l`. -/
def startsWithChars : List Char → List Char → Bool
  | [], _ => true
  | _ :: _, [] => false
  | a :: as, b :: bs => a = b && startsWithChars as bs

/-- Whether `pat` occurs contiguously inside `l`. -/
def containsChars (pat : List Char) : List Char → Bool
  | [] => startsWithChars pat []
  | c :: ls => startsWithChars pat (c :: ls) || containsChars pat ls

/-- JS `msg.includes(pat)`: substring containment test. -/
def msgIncludes (msg pat : String) : Bool :=
  containsChars pat.toList msg.toList

/-- The error message fragment recognised by
`handleOutputsHaveAlreadyBeenSignedError`. -/
def outputsSignedMsg : String := "outputs have already been signed"

/-- `handleOutputsHaveAlreadyBeenSignedError(keysetId, error)` (`wallet.ts`
lines 1516-1526), restricted to its effect on the counter store: when the
error message contains `"outputs have already been signed"`, bump the
keyset's counter by 10. -/
def handleOutputsHaveAlreadyBeenSignedError (cs : List KeysetCounter)
    (keysetId : String) (e : String) : List KeysetCounter :=
  if msgIncludes e outputsSignedMsg then increaseKeysetCounter cs keysetId 10
  else cs

/-- An `InvoiceHistory` entry (`wallet.ts` lines 61-73). -/
structure InvoiceHistory where
  amount : Int
  bolt11 : String
  quote : String
  memo : String
  date : String
  status : String
  mint : String
  unit : String
deriving Repr, DecidableEq

/-- A token-history entry of the tokens store, as produced by
`addPaidToken` (modelled from the spec; the tokens store is outside
`src/`). -/
structure HistoryToken where
  amount : Int
  token : String
  unit : String
  mint : String
  status : String
deriving Repr, DecidableEq

/-- Modelled from the spec: `tokenStore.addPaidToken` (tokens store outside
`src/`) appends a paid history entry. -/
def addPaidToken (hist : List HistoryToken) (amount : Int)
    (serializedProofs unit mintUrl : String) : List HistoryToken :=
  hist ++ [⟨amount, serializedProofs, unit, mintUrl, "paid"⟩]

/-- The persistent/store state the wallet actions mutate: keyset counters,
the active mint's proof store, the invoice history and the token history. -/
structure WalletState where
  keysetCounters : List KeysetCounter
  proofs : List WalletProof
  invoiceHistory : List InvoiceHistory
  historyTokens : List HistoryToken
deriving Repr, DecidableEq

/-- `setInvoicePaid(quoteId)` (`wallet.ts` lines 244-248): set the first
matching invoice-history entry's status to `"paid"`. -/
def setInvoicePaid : List InvoiceHistory → String → List InvoiceHistory
  | [], _ => []
  | i :: is, q =>
    if i.quote = q then { i with status := "paid" } :: is
    else i :: setInvoicePaid is q

/-- `removeOutgoingInvoiceFromHistory(quote)` (`wallet.ts` lines 1264-1269):
splice out the first invoice-history entry with the given quote id. -/
def removeOutgoingInvoiceFromHistory : List InvoiceHistory → String → List InvoiceHistory
  | [], _ => []
  | i :: is, q =>
    if i.quote = q then is
    else i :: removeOutgoingInvoiceFromHistory is q

/-- `updateInvoiceInHistory(quote, options)` (`wallet.ts` lines 1270-1286)
with both options given, as `melt` calls it: every entry with the quote id
gets the new status, and the new amount unless the amount is falsy (0). -/
def updateInvoiceInHistory (hist : List InvoiceHistory) (q : String)
    (status : String) (amount : Int) : List InvoiceHistory :=
  hist.map (fun i =>
    if i.quote = q then
      let i := { i with status := status }
      if amount ≠ 0 then { i with amount := amount } else i
    else i)

/-- External collaborators of `send` (`wallet.ts` lines 341-408): the
cashu-ts selector, the fee oracle, and the fallible `wallet.send` swap call
(arguments: target amount, proofs to send, counter; result: keep and send
proofs). -/
structure SendOracles where
  selectProofsToSend : List WalletProof → Int → Bool → SelectResult
  getFeesForProofs : List WalletProof → Int
  walletSend : Int → List WalletProof → Int → Except String (List WalletProof × List WalletProof)

/-- The catch block of `send` (`wallet.ts` lines 399-404): unreserve the
candidate proofs, probe the error for "outputs have already been signed"
(bumping the counter by 10 on a match), rethrow. -/
def sendCatch (keysetId : String) (e : String) (proofsToSend : List WalletProof)
    (st : WalletState) :
    Except String (List WalletProof × List WalletProof) × WalletState :=
  let store := setReserved st.proofs proofsToSend false none
  let cs := handleOutputsHaveAlreadyBeenSignedError st.keysetCounters keysetId e
  (Except.error e, { st with proofs := store, keysetCounters := cs })

/-- `send(proofs, amount, invalidate, includeFees)` (`wallet.ts` lines
341-408).  `keysetId` is the result of the `getKeyset()` read of the mint
registry (outside `src/`); the engine mutex is the identity in this
single-threaded embedding. -/
def send (O : SendOracles) (keysetId : String) (proofs : List WalletProof)
    (amount : Int) (invalidate includeFees : Bool) (st : WalletState) :
    Except String (List WalletProof × List WalletProof) × WalletState :=
  match spendableProofs proofs amount with
  | Except.error e => sendCatch keysetId e [] st
  | Except.ok spendable =>
    let proofsToSend := coinSelect O.selectProofsToSend spendable amount includeFees
    let totalAmount := sumProofs proofsToSend
    let fees := if includeFees then O.getFeesForProofs proofsToSend else 0
    let targetAmount := amount + fees
    if totalAmount ≠ targetAmount then
      let r := keysetCounter st.keysetCounters keysetId
      let st1 := { st with keysetCounters := r.2 }
      let proofsToSend := coinSelect O.selectProofsToSend spendable targetAmount true
      match O.walletSend targetAmount proofsToSend r.1 with
      | Except.error e => sendCatch keysetId e proofsToSend st1
      | Except.ok (keepProofs, sendProofs) =>
        let cs2 := increaseKeysetCounter st1.keysetCounters keysetId
          (keepProofs.length + sendProofs.length)
        let store := addProofs (addProofs st1.proofs keepProofs) sendProofs
        let store := removeProofs store proofsToSend
        let store := if invalidate then removeProofs store sendProofs else store
        let store := setReserved store sendProofs true none
        (Except.ok (keepProofs, sendProofs),
         { st1 with keysetCounters := cs2, proofs := store })
    else
      let keepProofs : List WalletProof := []
      let sendProofs := proofsToSend
      let store := if invalidate then removeProofs st.proofs sendProofs else st.proofs
      let store := setReserved store sendProofs true none
      (Except.ok (keepProofs, sendProofs), { st with proofs := store })

/-- State of a mint quote (`MintQuoteState` of cashu-ts). -/
inductive MintQuoteState where
  | UNPAID | PAID | ISSUED
deriving Repr, DecidableEq

/-- State of a melt quote (`MeltQuoteState` of cashu-ts). -/
inductive MeltQuoteState where
  | UNPAID | PENDING | PAID
deriving Repr, DecidableEq

/-- External collaborators of `mint` (`wallet.ts` lines 571-631): the quote
state check, the fallible `wallet.mintProofs` call (argument: the counter),
and `proofsStore.serializeProofs`. -/
structure MintOracles where
  checkMintQuote : Except String MintQuoteState
  mintProofs : Int → Except String (List WalletProof)
  serializeProofs : List WalletProof → Option String

/-- The catch block of `mint` (`wallet.ts` lines 621-630): probe the error
for "outputs have already been signed", rethrow. -/
def mintCatch (keysetId : String) (e : String) (st : WalletState) :
    Except String (List WalletProof) × WalletState :=
  (Except.error e,
   { st with keysetCounters :=
       handleOutputsHaveAlreadyBeenSignedError st.keysetCounters keysetId e })

/-- `mint(amount, hash, verbose)` (`wallet.ts` lines 571-631).  `keysetId`
is the `getKeyset()` result; `hash` identifies the mint quote. -/
def mint (O : MintOracles) (keysetId : String) (amount : Int) (hash : String)
    (activeUnit activeMintUrl : String) (st : WalletState) :
    Except String (List WalletProof) × WalletState :=
  match O.checkMintQuote with
  | Except.error e => mintCatch keysetId e st
  | Except.ok state =>
    if state ≠ MintQuoteState.PAID then
      mintCatch keysetId "invoice not paid yet." st
    else
      let r := keysetCounter st.keysetCounters keysetId
      let st1 := { st with keysetCounters := r.2 }
      match O.mintProofs r.1 with
      | Except.error e => mintCatch keysetId e st1
      | Except.ok proofs =>
        let st2 := { st1 with keysetCounters :=
          increaseKeysetCounter st1.keysetCounters keysetId proofs.length }
        if proofs.length = 0 then mintCatch keysetId "could not mint" st2
        else
          let st3 := { st2 with proofs := addProofs st2.proofs proofs }
          let st4 := { st3 with invoiceHistory := setInvoicePaid st3.invoiceHistory hash }
          match O.serializeProofs proofs with
          | none => mintCatch keysetId "could not serialize proofs." st4
          | some ser =>
            (Except.ok proofs,
             { st4 with historyTokens :=
                 addPaidToken st4.historyTokens amount ser activeUnit activeMintUrl })

/-- A melt-quote payload (`MeltQuotePayload` of cashu-ts): unit, the BOLT-11
request, and the optional NUT-15 `options.mpp.amount`. -/
structure MeltQuotePayload where
  unit : String
  request : String
  mppAmount : Option Int
deriving Repr, DecidableEq

/-- A melt-quote response (`MeltQuoteResponse` of cashu-ts), with the error
envelope field that `assertMintError` inspects. -/
structure MeltQuoteResponse where
  quote : String
  amount : Int
  fee_reserve : Int
  state : MeltQuoteState
  errorMsg : Option String
deriving Repr, DecidableEq

/-- Modelled from the spec: `assert_mint_error(response)` of the mint
registry (outside `src/`) throws on any error envelope in the response. -/
def assertMintError (r : MeltQuoteResponse) : Except String Unit :=
  match r.errorMsg with
  | some e => Except.error e
  | none => Except.ok ()

/-- A mint known to the registry, reduced to its URL. -/
structure MintId where
  url : String
deriving Repr, DecidableEq

/-- The `payInvoiceData.meltQuote` sub-state (`wallet.ts` lines 104-115). -/
structure MeltQuoteSub where
  payload : MeltQuotePayload
  response : MeltQuoteResponse
  error : String
deriving Repr, DecidableEq

/-- The `payInvoiceData.multiPartMeltQuotes` sub-state (`wallet.ts` lines
116-120). -/
structure MultiPartMeltQuotesSub where
  payloads : List (MintId × MeltQuotePayload)
  responses : List MeltQuoteResponse
  error : String
deriving Repr, DecidableEq

/-- The decoded invoice held on the session (`wallet.ts` lines 121-125). -/
structure InvoiceLite where
  sat : Int
  memo : String
  bolt11 : String
deriving Repr, DecidableEq

/-- The `payInvoiceData.lnurlpay` sub-state (`wallet.ts` lines 126-135). -/
structure LnurlPayData where
  domain : String
  callback : String
  minSendable : Int
  maxSendable : Int
  metadata : String
  tag : String
deriving Repr, DecidableEq

/-- The `payInvoiceData.input` sub-state (`wallet.ts` lines 137-147);
`amount` is `Option Int` because JS holds `number | null`. -/
structure InputData where
  request : String
  amount : Option Int
  comment : String
  quote : String
deriving Repr, DecidableEq

/-- The transient pay-invoice session (`payInvoiceData`, `wallet.ts` lines
100-148). -/
structure PayInvoiceSession where
  blocking : Bool
  bolt11 : String
  show_ : Bool
  meltQuote : MeltQuoteSub
  multiPartMeltQuotes : MultiPartMeltQuotesSub
  invoice : Option InvoiceLite
  lnurlpay : LnurlPayData
  input : InputData
deriving Repr, DecidableEq

/-- The catch block of `meltQuote` (`wallet.ts` lines 739-744): clear the
latch, store the error on the session, rethrow. -/
def mqFail (e : String) (s : PayInvoiceSession) (issued : List MeltQuotePayload) :
    Except String MeltQuoteResponse × PayInvoiceSession × List MeltQuotePayload :=
  (Except.error e,
   { s with blocking := false, meltQuote := { s.meltQuote with error := e } },
   issued)

/-- `meltQuote()` (`wallet.ts` lines 717-747), parametrised by the active
unit and the mint's `createMeltQuote` API call.  The third component of the
result is the list of payloads actually sent to the mint. -/
def meltQuote (activeUnit : String)
    (createMeltQuote : MeltQuotePayload → Except String MeltQuoteResponse)
    (s : PayInvoiceSession) :
    Except String MeltQuoteResponse × PayInvoiceSession × List MeltQuotePayload :=
  if s.blocking then
    (Except.error "already processing an melt quote.", s, [])
  else
    let s1 := { s with blocking := true, meltQuote := { s.meltQuote with error := "" } }
    if s1.input.request = "" then mqFail "no invoice provided." s1 []
    else
      let payload : MeltQuotePayload := ⟨activeUnit, s1.input.request, none⟩
      let s2 := { s1 with meltQuote := { s1.meltQuote with payload := payload } }
      match createMeltQuote payload with
      | Except.error e => mqFail e s2 [payload]
      | Except.ok data =>
        match assertMintError data with
        | Except.error e => mqFail e s2 [payload]
        | Except.ok _ =>
          (Except.ok data,
           { s2 with meltQuote := { s2.meltQuote with response := data },
                     blocking := false },
           [payload])

/-- JS `Math.round` on exact values: round half toward positive infinity. -/
def jsRound (x : ℚ) : Int := ⌊x + 1 / 2⌋

/-- The per-mint partial amounts of the MPP allocation loop (`wallet.ts`
lines 672-692): `partialAmount = round(invoiceAmount * weight + carry)`,
with the fractional residual carried to the next mint.  The JS float
arithmetic is embedded as exact rational arithmetic. -/
def mppParts (invoiceAmount : ℚ) : List ℚ → ℚ → List Int
  | [], _ => []
  | w :: ws, carry =>
    let f := invoiceAmount * w + carry
    let p := jsRound f
    p :: mppParts invoiceAmount ws (f - p)

/-- The final value of the carry accumulator after the MPP loop. -/
def mppFinalCarry (invoiceAmount : ℚ) : List ℚ → ℚ → ℚ
  | [], carry => carry
  | w :: ws, carry =>
    let f := invoiceAmount * w + carry
    mppFinalCarry invoiceAmount ws (f - jsRound f)

/-- The partial amounts actually retained as payloads: mints whose partial
is not `> 0` are skipped (`wallet.ts` line 680). -/
def mppRetained (invoiceAmount : ℚ) (ws : List ℚ) : List Int :=
  (mppParts invoiceAmount ws 0).filter (fun p => decide (0 < p))

/-- The payload list built by the MPP loop (`wallet.ts` lines 671-692),
pairing each retained partial with its mint.  Mints and weights are
traversed in lockstep. -/
def mppPayloads (unit req : String) (invoiceAmount : ℚ) :
    List (MintId × ℚ) → ℚ → List (MintId × MeltQuotePayload)
  | [], _ => []
  | (m, w) :: rest, carry =>
    let f := invoiceAmount * w + carry
    let p := jsRound f
    let tail := mppPayloads unit req invoiceAmount rest (f - p)
    if 0 < p then (m, ⟨unit, req, some p⟩) :: tail else tail

/-- The sequential quote-request loop of `multiPathMeltQuotes` (`wallet.ts`
lines 695-702): request a melt quote per payload, `assertMintError` each
response, abort on the first failure.  The second component is the list of
payloads actually sent. -/
def requestMeltQuotes
    (api : MintId → MeltQuotePayload → Except String MeltQuoteResponse) :
    List (MintId × MeltQuotePayload) →
      Except String (List MeltQuoteResponse) × List (MintId × MeltQuotePayload)
  | [] => (Except.ok [], [])
  | (m, pl) :: rest =>
    match api m pl with
    | Except.error e => (Except.error e, [(m, pl)])
    | Except.ok data =>
      match assertMintError data with
      | Except.error e => (Except.error e, [(m, pl)])
      | Except.ok _ =>
        let r := requestMeltQuotes api rest
        match r.1 with
        | Except.error e => (Except.error e, (m, pl) :: r.2)
        | Except.ok others => (Except.ok (data :: others), (m, pl) :: r.2)

/-- The catch block of `multiPathMeltQuotes` (`wallet.ts` lines 707-712). -/
def mpmqFail (e : String) (s : PayInvoiceSession)
    (issued : List (MintId × MeltQuotePayload)) :
    Except String (List MeltQuoteResponse) × PayInvoiceSession ×
      List (MintId × MeltQuotePayload) :=
  (Except.error e,
   { s with blocking := false,
            multiPartMeltQuotes := { s.multiPartMeltQuotes with error := e } },
   issued)

/-- `multiPathMeltQuotes()` (`wallet.ts` lines 637-715), parametrised by the
active unit, the NUT-15-capable mints, the multi-mint balance and weights,
and the per-mint `createMeltQuote` API.  The third component of the result
is the list of (mint, payload) requests actually issued. -/
def multiPathMeltQuotes (activeUnit : String) (multiMints : List MintId)
    (overallBalance : Int) (weights : List ℚ)
    (api : MintId → MeltQuotePayload → Except String MeltQuoteResponse)
    (s : PayInvoiceSession) :
    Except String (List MeltQuoteResponse) × PayInvoiceSession ×
      List (MintId × MeltQuotePayload) :=
  if s.blocking then
    (Except.error "already processing an melt quote.", s, [])
  else
    let s1 := { s with
      blocking := true,
      multiPartMeltQuotes := { s.multiPartMeltQuotes with error := "" } }
    if s1.input.request = "" then mpmqFail "no invoice provided." s1 []
    else if multiMints = [] then
      mpmqFail "no mint supports multi-part payments" s1 []
    else
      match s1.invoice with
      | none => mpmqFail "invoice does not have an amount" s1 []
      | some inv =>
        if inv.sat = 0 then mpmqFail "invoice does not have an amount" s1 []
        else if overallBalance < inv.sat then
          mpmqFail "insufficient multi-mint balance" s1 []
        else
          let payloads :=
            mppPayloads activeUnit s1.input.request (inv.sat : ℚ)
              (multiMints.zip weights) 0
          let s2 := { s1 with multiPartMeltQuotes :=
            { s1.multiPartMeltQuotes with payloads := payloads } }
          let r := requestMeltQuotes api payloads
          match r.1 with
          | Except.error e => mpmqFail e s2 r.2
          | Except.ok responses =>
            (Except.ok responses,
             { s2 with
               multiPartMeltQuotes :=
                 { s2.multiPartMeltQuotes with responses := responses },
               blocking := false },
             r.2)

/-- `host.split("https://")[1].split("/")[0]` (`wallet.ts` lines 1448-1450). -/
def lnurlDomain (host : String) : String :=
  ((((host.splitOn "https://").getD 1 "").splitOn "/").getD 0 "")

/-- The response-handling part of `lnurlPayFirst(address)` (`wallet.ts`
lines 1442-1467), from the point where the LNURL endpoint `host` has been
resolved and its response `data` fetched: on `tag == "payRequest"`, store
the metadata, auto-set the input amount when `min == max`, then clear the
invoice, reset the input and show the dialog. -/
def lnurlPayFirst (host : String) (data : LnurlPayData)
    (s : PayInvoiceSession) : PayInvoiceSession :=
  if data.tag = "payRequest" then
    let lnurlpay := { data with domain := lnurlDomain host }
    let s := { s with lnurlpay := lnurlpay }
    let s :=
      if lnurlpay.maxSendable = lnurlpay.minSendable then
        { s with input := { s.input with amount := some (lnurlpay.maxSendable / 1000) } }
      else s
    let s := { s with invoice := none }
    let s := { s with input := { request := "", amount := none, comment := "", quote := "" } }
    { s with show_ := true }
  else s

/-- `Math.ceil(Math.log2(f))` for a positive integer `f`: the least `k`
with `f ≤ 2^k` (JS doubles hold integers exactly below `2^53`, so the
64-bit search is exhaustive on the source's domain). -/
def ceilLog2 (f : Int) : Int :=
  ((((List.range 64).find? (fun k => f ≤ 2 ^ k)).getD 64 : Nat) : Int)

/-- `Math.ceil(Math.log2(feeReserve)) || 1` (`wallet.ts` line 810) for a
positive integer fee reserve: the ceiling of the base-2 logarithm, with a
falsy 0 replaced by 1. -/
def ceilLog2OrOne (feeReserve : Int) : Int :=
  let c := ceilLog2 feeReserve
  if c = 0 then 1 else c

/-- A `wallet.meltProofs` result (cashu-ts): the updated quote and the
NUT-08 change proofs. -/
structure MeltResult where
  quote : MeltQuoteResponse
  change : List WalletProof
deriving Repr, DecidableEq

/-- The catch block of `melt` (`wallet.ts` lines 861-891): rethrow without
rollback when the app is unloading or the re-queried quote state is PAID or
PENDING (or when the re-query itself fails); otherwise unreserve the send
proofs, bump the counter back by the remembered increase, drop the pending
invoice-history entry, and probe the error for "outputs have already been
signed" before rethrowing. -/
def meltCatch (isUnloading : Bool) (checkMeltQuote : Except String MeltQuoteState)
    (keysetId : String) (keysetCounterIncrease : Int) (quote : MeltQuoteResponse)
    (sendProofs : List WalletProof) (e : String)
    (s : PayInvoiceSession) (st : WalletState) :
    Except String MeltResult × PayInvoiceSession × WalletState :=
  if isUnloading then (Except.error e, s, st)
  else
    match checkMeltQuote with
    | Except.error e2 => (Except.error e2, s, st)
    | Except.ok qstate =>
      if qstate = MeltQuoteState.PAID ∨ qstate = MeltQuoteState.PENDING then
        (Except.error e, s, st)
      else
        let st := { st with proofs := setReserved st.proofs sendProofs false none }
        let st := { st with keysetCounters :=
          increaseKeysetCounter st.keysetCounters keysetId (-keysetCounterIncrease) }
        let st := { st with invoiceHistory :=
          removeOutgoingInvoiceFromHistory st.invoiceHistory quote.quote }
        let st := { st with keysetCounters :=
          handleOutputsHaveAlreadyBeenSignedError st.keysetCounters keysetId e }
        (Except.error e, s, st)

/-- The critical section of `melt()` (`wallet.ts` lines 798-891), entered
after the initial `send` produced the non-empty `sendProofs`:
reserve the send proofs under the quote and append the pending outgoing
invoice-history entry; read the counter and bump it speculatively by
`|sendProofs|` and, when `fee_reserve > 0`, by the change-output count
(only the latter is remembered in `keysetCounterIncrease`, exactly as in
the source); call `wallet.meltProofs`; finish on PAID, otherwise run the
catch block. -/
def meltAfterSend (isUnloading : Bool)
    (meltProofs : Int → Except String MeltResult)
    (checkMeltQuote : Except String MeltQuoteState)
    (serializeProofs : List WalletProof → String)
    (activeMintUrl activeUnit dateStr : String)
    (quote : MeltQuoteResponse) (sendProofs : List WalletProof) (keysetId : String)
    (s : PayInvoiceSession) (st : WalletState) :
    Except String MeltResult × PayInvoiceSession × WalletState :=
  let amount := quote.amount + quote.fee_reserve
  -- addOutgoingPendingInvoiceToHistory (wallet.ts lines 1246-1263)
  let pendingEntry : InvoiceHistory :=
    ⟨-(quote.amount + quote.fee_reserve), s.input.request, quote.quote,
     "Outgoing invoice", dateStr, "pending", activeMintUrl, activeUnit⟩
  let st := { st with
    proofs := setReserved st.proofs sendProofs true (some quote.quote),
    invoiceHistory := st.invoiceHistory ++ [pendingEntry] }
  let r := keysetCounter st.keysetCounters keysetId
  let cs2 := increaseKeysetCounter r.2 keysetId sendProofs.length
  let bump :=
    if 0 < quote.fee_reserve then
      let countChangeOutputs := ceilLog2OrOne quote.fee_reserve
      (increaseKeysetCounter cs2 keysetId countChangeOutputs, countChangeOutputs)
    else (cs2, 0)
  let keysetCounterIncrease := bump.2
  let st := { st with keysetCounters := bump.1 }
  match meltProofs r.1 with
  | Except.error e =>
    meltCatch isUnloading checkMeltQuote keysetId keysetCounterIncrease quote
      sendProofs e s st
  | Except.ok data =>
    if data.quote.state ≠ MeltQuoteState.PAID then
      meltCatch isUnloading checkMeltQuote keysetId keysetCounterIncrease quote
        sendProofs "Invoice not paid." s st
    else
      let amountPaid := amount - sumProofs data.change
      let st := { st with proofs := removeProofs st.proofs sendProofs }
      let st := { st with proofs := addProofs st.proofs data.change }
      let ht := addPaidToken st.historyTokens (-amountPaid)
        (serializeProofs sendProofs) activeUnit activeMintUrl
      let st := { st with historyTokens := ht }
      let st := { st with invoiceHistory :=
        updateInvoiceInHistory st.invoiceHistory quote.quote "paid" (-amountPaid) }
      let s := { s with invoice := some ⟨0, "", ""⟩, show_ := false }
      (Except.ok data, s, st)

/-- An entry of the `checkstate` response (`ProofState` of cashu-ts). -/
inductive CheckStateEnum where
  | UNSPENT | PENDING | SPENT
deriving Repr, DecidableEq

/-- One `{Y, state}` pair returned by `wallet.checkProofsStates`. -/
structure ProofStateEntry where
  Y : String
  state : CheckStateEnum
deriving Repr, DecidableEq

/-- `checkProofsSpendable(proofs, update_history)` (`wallet.ts` lines
906-955).  `hashY` embeds `hashToCurve(secret).toHex(true)`;
`checkStates` is the `wallet.checkProofsStates` mint query;
the last component of the result counts the mint queries issued. -/
def checkProofsSpendable (hashY : String → String)
    (checkStates : Except String (List ProofStateEntry))
    (serializeProofs : List WalletProof → Option String)
    (proofs : List WalletProof) (update_history : Bool)
    (activeUnit activeMintUrl : String) (st : WalletState) :
    Except String (Option (List WalletProof)) × WalletState × Nat :=
  if proofs.length = 0 then (Except.ok none, st, 0)
  else
    match checkStates with
    | Except.error e => (Except.error e, st, 1)
    | Except.ok proofStates =>
      let spentProofsStates := proofStates.filter
        (fun p => p.state = CheckStateEnum.SPENT)
      let spentProofs := proofs.filter
        (fun p => spentProofsStates.any (fun sEntry => sEntry.Y = hashY p.secret))
      if spentProofs.length ≠ 0 then
        let st1 := { st with proofs := removeProofs st.proofs spentProofs }
        match serializeProofs spentProofs with
        | none => (Except.error "could not serialize proofs.", st1, 1)
        | some ser =>
          let ht := addPaidToken st1.historyTokens (-(sumProofs spentProofs))
            ser activeUnit activeMintUrl
          let st2 :=
            if update_history then { st1 with historyTokens := ht }
            else st1
          (Except.ok (some spentProofs), st2, 1)
      else (Except.ok (some spentProofs), st, 1)

/-! ### Generic lemmas about the keyset-counter store -/

theorem lookupCounter_nil (id : String) :
    lookupCounter [] id = none := rfl

theorem lookupCounter_cons_eq (c : KeysetCounter) (cs : List KeysetCounter)
    (id : String) (h : c.id = id) :
    lookupCounter (c :: cs) id = some c.counter := by
  simp [lookupCounter, List.find?_cons_of_pos, h]

theorem lookupCounter_cons_ne (c : KeysetCounter) (cs : List KeysetCounter)
    (id : String) (h : ¬ c.id = id) :
    lookupCounter (c :: cs) id = lookupCounter cs id := by
  simp [lookupCounter, List.find?_cons_of_neg, h]

theorem counterOf_eq_lookup (cs : List KeysetCounter) (id : String) :
    counterOf cs id = (lookupCounter cs id).getD 1 := by
  simp only [counterOf, lookupCounter]
  cases cs.find? (fun c => c.id = id) <;> simp

/-- The effect of `increaseKeysetCounter` on the stored value: an existing
counter is bumped by `b`; an absent one is created holding exactly `b`. -/
theorem lookupCounter_increase (cs : List KeysetCounter) (id : String) (b : Int) :
    lookupCounter (increaseKeysetCounter cs id b) id =
      some ((match lookupCounter cs id with
             | some v => v + b
             | none => b : Int)) := by
  induction cs with
  | nil => simp [increaseKeysetCounter, lookupCounter]
  | cons c cs ih =>
    by_cases hc : c.id = id
    · rw [lookupCounter_cons_eq c cs id hc]
      show lookupCounter (if c.id = id then ⟨c.id, c.counter + b⟩ :: cs
        else c :: increaseKeysetCounter cs id b) id = _
      rw [if_pos hc, lookupCounter_cons_eq ⟨c.id, c.counter + b⟩ cs id hc]
    · rw [lookupCounter_cons_ne c cs id hc]
      show lookupCounter (if c.id = id then ⟨c.id, c.counter + b⟩ :: cs
        else c :: increaseKeysetCounter cs id b) id = _
      rw [if_neg hc, lookupCounter_cons_ne c _ id hc, ih]

theorem keysetCounter_fst (cs : List KeysetCounter) (id : String) :
    (keysetCounter cs id).1 = counterOf cs id := by
  induction cs with
  | nil => simp [keysetCounter, counterOf]
  | cons c cs ih =>
    by_cases h : c.id = id
    · simp [keysetCounter, counterOf, h]
    · rw [counterOf_eq_lookup (c :: cs) id, lookupCounter_cons_ne c cs id h,
        ← counterOf_eq_lookup]
      show (if c.id = id then (c.counter, c :: cs)
        else ((keysetCounter cs id).1, c :: (keysetCounter cs id).2)).1 = _
      rw [if_neg h]
      exact ih

/-- After a `keysetCounter(id)` read, the store holds the reported value. -/
theorem lookupCounter_keysetCounter_snd (cs : List KeysetCounter) (id : String) :
    lookupCounter ((keysetCounter cs id).2) id = some (counterOf cs id) := by
  induction cs with
  | nil => simp [keysetCounter, counterOf, lookupCounter]
  | cons c cs ih =>
    by_cases h : c.id = id
    · show lookupCounter ((if c.id = id then (c.counter, c :: cs)
        else ((keysetCounter cs id).1, c :: (keysetCounter cs id).2)).2) id = _
      rw [if_pos h, lookupCounter_cons_eq c cs id h, counterOf_eq_lookup,
        lookupCounter_cons_eq c cs id h]
      rfl
    · show lookupCounter ((if c.id = id then (c.counter, c :: cs)
        else ((keysetCounter cs id).1, c :: (keysetCounter cs id).2)).2) id = _
      rw [if_neg h, lookupCounter_cons_ne c _ id h, ih,
        counterOf_eq_lookup (c :: cs) id, lookupCounter_cons_ne c cs id h,
        ← counterOf_eq_lookup]

theorem counterOf_increase_of_found (cs : List KeysetCounter) (id : String) (b : Int)
    (h : (lookupCounter cs id).isSome) :
    counterOf (increaseKeysetCounter cs id b) id = counterOf cs id + b := by
  rcases Option.isSome_iff_exists.mp h with ⟨v, hv⟩
  rw [counterOf_eq_lookup, lookupCounter_increase, hv, counterOf_eq_lookup, hv]
  rfl

/-- C9: when the keyset id is absent from the counter store,
`increaseKeysetCounter(id, by)` creates an entry holding exactly `by`
(not `1 + by`), so a later `keysetCounter(id)` read returns `by` — in
particular a negative value for negative `by` — whereas a
`keysetCounter(id)` read performed first returns 1 and makes a subsequent
increase land on `1 + by`: the observed counter depends on which operation
first touched the id. -/
theorem increaseKeysetCounter_absent_creates_delta
    (cs : List KeysetCounter) (id : String) (b : Int)
    (h : lookupCounter cs id = none) :
    lookupCounter (increaseKeysetCounter cs id b) id = some b ∧
    (keysetCounter (increaseKeysetCounter cs id b) id).1 = b ∧
    (keysetCounter cs id).1 = 1 ∧
    lookupCounter (increaseKeysetCounter ((keysetCounter cs id).2) id b) id
      = some (1 + b) := by
  refine ⟨?_, ?_, ?_, ?_⟩
  · rw [lookupCounter_increase, h]
  · rw [keysetCounter_fst, counterOf_eq_lookup, lookupCounter_increase, h]
    rfl
  · rw [keysetCounter_fst, counterOf_eq_lookup, h]
    rfl
  · rw [lookupCounter_increase, lookupCounter_keysetCounter_snd,
      counterOf_eq_lookup, h]
    rfl

/-- Concrete instantiation of the C9 theorem at an absent id with a
negative delta. -/
theorem increaseKeysetCounter_absent_witness :
    lookupCounter (increaseKeysetCounter [] "k" (-2)) "k" = some (-2) ∧
    (keysetCounter (increaseKeysetCounter [] "k" (-2)) "k").1 = -2 ∧
    (keysetCounter ([] : List KeysetCounter) "k").1 = 1 ∧
    lookupCounter (increaseKeysetCounter ((keysetCounter [] "k").2) "k" (-2)) "k"
      = some (1 + -2) :=
  increaseKeysetCounter_absent_creates_delta [] "k" (-2) rfl

/-! ### C4: splitAmount -/

theorem splitAmount_sum_mod (v : Nat) :
    ∀ n, (((List.range n).filter (fun i => v.testBit i)).map (fun i => 2 ^ i)).sum
      = v % 2 ^ n := by
  intro n
  induction n with
  | zero => simp [Nat.mod_one]
  | succ n ih =>
    rw [List.range_succ, List.filter_append, List.map_append, List.sum_append, ih]
    have hbit := Nat.testBit_to_div_mod (x := v) (i := n)
    by_cases h : v.testBit n
    · have h1 : v / 2 ^ n % 2 = 1 := by
        rw [h] at hbit
        exact of_decide_eq_true hbit.symm
      simp only [List.filter_cons, List.filter_nil, h, if_pos, List.map_cons,
        List.map_nil, List.sum_cons, List.sum_nil, Nat.mod_pow_succ, h1]
      ring
    · have hfalse : v.testBit n = false := by
        cases hx : v.testBit n
        · rfl
        · exact absurd hx h
      have h0 : v / 2 ^ n % 2 = 0 := by
        rw [hfalse] at hbit
        have := of_decide_eq_false hbit.symm
        omega
      simp only [List.filter_cons, List.filter_nil, hfalse, List.map_nil,
        List.sum_nil, Nat.mod_pow_succ, h0, Bool.false_eq_true, if_false]
      ring

/-- C4 counterexample: `splitAmount` masks its input to 32 bits, so at
`v = 2^32` it returns `[]`, whose sum is 0, not `v`. -/
theorem splitAmount_32bit_counterexample :
    splitAmount (2 ^ 32) = [] ∧ (splitAmount (2 ^ 32)).sum ≠ 2 ^ 32 := by
  constructor <;> decide

/-- C4 (amended: restricted to `v < 2^32`, the range on which the JS 32-bit
bitwise loop is faithful): `splitAmount(v)` returns chunks summing to `v`,
each a power of two, with no chunk value repeated. -/
theorem splitAmount_binary_decomposition (v : Nat) (h : v < 2 ^ 32) :
    (splitAmount v).sum = v ∧
    (∀ chunk ∈ splitAmount v, ∃ i, chunk = 2 ^ i) ∧
    (splitAmount v).Nodup := by
  refine ⟨?_, ?_, ?_⟩
  · rw [splitAmount, splitAmount_sum_mod v 32, Nat.mod_eq_of_lt h]
  · intro chunk hc
    rcases List.mem_map.mp hc with ⟨i, _, hi⟩
    exact ⟨i, hi.symm⟩
  · apply List.Nodup.map
    · intro a b hab
      exact Nat.pow_right_injective (by norm_num) hab
    · exact (List.nodup_range 32).filter _

/-- Concrete instantiation of the C4 theorem at `v = 100`. -/
theorem splitAmount_binary_decomposition_witness :
    (100 < 2 ^ 32) ∧
    ((splitAmount 100).sum = 100 ∧
     (∀ chunk ∈ splitAmount 100, ∃ i, chunk = 2 ^ i) ∧
     (splitAmount 100).Nodup) :=
  ⟨by norm_num, splitAmount_binary_decomposition 100 (by norm_num)⟩

/-! ### C5: coinSelect -/

/-- C5: `coinSelect` returns `[]` whenever the input proofs sum below the
requested amount (hence on empty input, given that the library selector can
only pick proofs from its input), and every proof of a result carries
`reserved = false`. -/
theorem coinSelect_insufficient_and_unreserved
    (sel : List WalletProof → Int → Bool → SelectResult)
    (hsel : ∀ ps a f, ∀ p ∈ (sel ps a f).send, p ∈ ps) :
    (∀ ps a f, sumProofs ps < a → coinSelect sel ps a f = []) ∧
    (∀ a f, coinSelect sel [] a f = []) ∧
    (∀ ps a f, ∀ p ∈ coinSelect sel ps a f, p.reserved = false) := by
  refine ⟨?_, ?_, ?_⟩
  · intro ps a f hlt
    rw [coinSelect, if_pos]
    exact hlt
  · intro a f
    rw [coinSelect]
    split
    · rfl
    · have : (sel [] a f).send = [] := by
        cases hs : (sel [] a f).send with
        | nil => rfl
        | cons p ps =>
          have := hsel [] a f p (by rw [hs]; exact List.mem_cons_self p ps)
          simp at this
      rw [this]
      rfl
  · intro ps a f p hp
    rw [coinSelect] at hp
    rcases hx : (sumProofs ps < a : Prop) with _
    by_cases hlt : (ps.map (fun q => q.amount)).sum < a
    · rw [if_pos hlt] at hp
      simp at hp
    · rw [if_neg hlt] at hp
      rcases List.mem_map.mp hp with ⟨q, _, hq⟩
      rw [← hq]

/-- A trivially input-respecting selector: send everything. -/
def selAll : List WalletProof → Int → Bool → SelectResult :=
  fun ps _ _ => ⟨ps, []⟩

/-- Concrete instantiation of the C5 theorem. -/
theorem coinSelect_insufficient_and_unreserved_witness :
    coinSelect selAll [] 5 false = [] ∧
    coinSelect selAll [⟨4, "s", "k", true, none⟩] 9 true = [] :=
  have h := coinSelect_insufficient_and_unreserved selAll
    (by intro ps a f p hp; simpa [selAll] using hp)
  ⟨h.2.1 5 false, h.1 [⟨4, "s", "k", true, none⟩] 9 true (by decide)⟩

/-! ### C6: spendableProofs -/

/-- C6: `spendableProofs(P, a)` raises `"Balance too low"` exactly when the
unreserved proofs of `P` sum below `a`, and otherwise returns exactly the
unreserved proofs of `P`. -/
theorem spendableProofs_balance_iff (P : List WalletProof) (a : Int) :
    ((∃ e, spendableProofs P a = Except.error e) ↔
      sumProofs (getUnreservedProofs P) < a) ∧
    (¬ sumProofs (getUnreservedProofs P) < a →
      spendableProofs P a = Except.ok (getUnreservedProofs P)) := by
  by_cases h : sumProofs (getUnreservedProofs P) < a
  · refine ⟨⟨fun _ => h, fun _ => ⟨"Balance too low", ?_⟩⟩, fun hc => absurd h hc⟩
    rw [spendableProofs]
    simp only [h, if_pos]
  · refine ⟨⟨?_, fun hc => absurd hc h⟩, fun _ => ?_⟩
    · rintro ⟨e, he⟩
      rw [spendableProofs] at he
      simp only [h, if_neg, if_false] at he
      cases he
    · rw [spendableProofs]
      simp only [h, if_neg, if_false]

/-- Concrete instantiation of the C6 theorem: with one unreserved proof of
amount 5, requesting 3 succeeds with exactly the unreserved proofs, and
requesting 9 raises. -/
theorem spendableProofs_balance_iff_witness :
    spendableProofs [⟨5, "s", "k", false, none⟩] 3
      = Except.ok (getUnreservedProofs [⟨5, "s", "k", false, none⟩]) ∧
    (∃ e, spendableProofs [⟨5, "s", "k", false, none⟩] 9 = Except.error e) :=
  ⟨(spendableProofs_balance_iff [⟨5, "s", "k", false, none⟩] 3).2 (by decide),
   (spendableProofs_balance_iff [⟨5, "s", "k", false, none⟩] 9).1.mpr (by decide)⟩

/-! ### C10: checkProofsSpendable on the empty list -/

/-- C10: on an empty proof list `checkProofsSpendable` returns `undefined`
(`none`, not an empty spent list), issues no spent-state query to the mint,
and leaves the whole wallet state — proof store and token history included —
unchanged, for either value of `update_history`. -/
theorem checkProofsSpendable_empty_noop (hashY : String → String)
    (checkStates : Except String (List ProofStateEntry))
    (serializeProofs : List WalletProof → Option String)
    (update_history : Bool) (activeUnit activeMintUrl : String)
    (st : WalletState) :
    checkProofsSpendable hashY checkStates serializeProofs [] update_history
      activeUnit activeMintUrl st = (Except.ok none, st, 0) := rfl

/-! ### C2: lnurlPayFirst -/

/-- A fresh pay-invoice session, mirroring the initial `payInvoiceData`
state (`wallet.ts` lines 100-148). -/
def initSession : PayInvoiceSession :=
  { blocking := false
    bolt11 := ""
    show_ := false
    meltQuote :=
      { payload := ⟨"", "", none⟩
        response := ⟨"", 0, 0, MeltQuoteState.UNPAID, none⟩
        error := "" }
    multiPartMeltQuotes := { payloads := [], responses := [], error := "" }
    invoice := none
    lnurlpay := ⟨"", "", 0, 0, "", ""⟩
    input := { request := "", amount := none, comment := "", quote := "" } }

/-- C2 (code bug): at the claim's own example — a fetched `payRequest`
response with `minSendable == maxSendable == 10000` msat — `lnurlPayFirst`
finishes with the session's input amount `null` (`none`), not 10 sat: the
auto-set assignment is immediately overwritten by the input reset. -/
theorem lnurlPayFirst_amount_cleared :
    (lnurlPayFirst "https://example.com/.well-known/lnurlp/alice"
      ⟨"", "https://example.com/cb", 10000, 10000, "", "payRequest"⟩
      initSession).input.amount = none ∧
    (lnurlPayFirst "https://example.com/.well-known/lnurlp/alice"
      ⟨"", "https://example.com/cb", 10000, 10000, "", "payRequest"⟩
      initSession).show_ = true := ⟨rfl, rfl⟩

/-! ### C3: the multi-path melt allocation -/

theorem mppParts_nil (A c : ℚ) : mppParts A [] c = [] := rfl

theorem mppParts_cons (A w c : ℚ) (ws : List ℚ) :
    mppParts A (w :: ws) c =
      jsRound (A * w + c) ::
        mppParts A ws (A * w + c - jsRound (A * w + c)) := rfl

theorem mppFinalCarry_nil (A c : ℚ) : mppFinalCarry A [] c = c := rfl

theorem mppFinalCarry_cons (A w c : ℚ) (ws : List ℚ) :
    mppFinalCarry A (w :: ws) c =
      mppFinalCarry A ws (A * w + c - jsRound (A * w + c)) := rfl

/-- The rounding residual `x - round(x)` lies in `[-1/2, 1/2)`. -/
theorem jsRound_residual_bounds (x : ℚ) :
    -(1 / 2) ≤ x - (jsRound x : ℚ) ∧ x - (jsRound x : ℚ) < 1 / 2 := by
  unfold jsRound
  constructor
  · have h := Int.floor_le (x + 1 / 2)
    linarith
  · have h := Int.lt_floor_add_one (x + 1 / 2)
    push_cast at h ⊢
    linarith

/-- The partial amounts and the final carry account exactly for the
allocated total. -/
theorem mppParts_sum (A : ℚ) (ws : List ℚ) : ∀ c : ℚ,
    (((mppParts A ws c).sum : Int) : ℚ) = A * ws.sum + c - mppFinalCarry A ws c := by
  induction ws with
  | nil => intro c; simp [mppParts_nil, mppFinalCarry_nil]
  | cons w ws ih =>
    intro c
    rw [mppParts_cons, mppFinalCarry_cons, List.sum_cons, List.sum_cons,
      Int.cast_add, ih]
    ring

/-- The carry stays in `[-1/2, 1/2)` throughout the loop. -/
theorem mppFinalCarry_bounds (A : ℚ) (ws : List ℚ) : ∀ c : ℚ,
    -(1 / 2) ≤ c → c < 1 / 2 →
    -(1 / 2) ≤ mppFinalCarry A ws c ∧ mppFinalCarry A ws c < 1 / 2 := by
  induction ws with
  | nil => intro c h1 h2; rw [mppFinalCarry_nil]; exact ⟨h1, h2⟩
  | cons w ws ih =>
    intro c h1 h2
    rw [mppFinalCarry_cons]
    exact ih _ (jsRound_residual_bounds _).1 (jsRound_residual_bounds _).2

/-- With a non-negative invoice amount and weights, and a carry at least
`-1/2`, every partial amount is non-negative. -/
theorem mppParts_nonneg (A : ℚ) (hA : 0 ≤ A) :
    ∀ ws : List ℚ, (∀ w ∈ ws, 0 ≤ w) → ∀ c : ℚ, -(1 / 2) ≤ c →
      ∀ p ∈ mppParts A ws c, 0 ≤ p := by
  intro ws
  induction ws with
  | nil => intro _ c _ p hp; rw [mppParts_nil] at hp; cases hp
  | cons w ws ih =>
    intro hw c hc p hp
    rw [mppParts_cons] at hp
    rcases List.mem_cons.mp hp with h | h
    · subst h
      unfold jsRound
      have hw0 : 0 ≤ w := hw w (List.mem_cons_self _ _)
      have hAw : 0 ≤ A * w := mul_nonneg hA hw0
      have h0 : (0 : ℚ) ≤ A * w + c + 1 / 2 := by linarith
      exact Int.le_floor.mpr (by exact_mod_cast h0)
    · exact ih (fun u hu => hw u (List.mem_cons_of_mem _ hu)) _
        (jsRound_residual_bounds _).1 p h

/-- Filtering to positive entries preserves the sum of a list of
non-negative integers: the dropped entries are all 0. -/
theorem sum_filter_pos_of_nonneg : ∀ l : List Int, (∀ p ∈ l, 0 ≤ p) →
    (l.filter (fun p => decide (0 < p))).sum = l.sum := by
  intro l
  induction l with
  | nil => intro _; rfl
  | cons x l ih =>
    intro h
    have hrest := ih (fun p hp => h p (List.mem_cons_of_mem _ hp))
    rw [List.filter_cons]
    by_cases hx : (0 : Int) < x
    · rw [decide_eq_true hx, if_pos rfl, List.sum_cons, List.sum_cons, hrest]
    · have hx0 : x = 0 :=
        le_antisymm (not_lt.mp hx) (h x (List.mem_cons_self _ _))
      rw [decide_eq_false hx, if_neg (by simp), hrest, List.sum_cons, hx0,
        zero_add]

/-- C3: for weights in `[0,1]` summing to 1 and a positive integer invoice
amount, the MPP allocation produces only non-negative partials, and the
retained partials (those `> 0`, the skipped ones being exactly 0) sum to
the invoice amount exactly.  The JS float arithmetic is idealised as exact
rational arithmetic. -/
theorem mpp_allocation_exact (n : Nat) (hn : 0 < n) (ws : List ℚ)
    (hw : ∀ w ∈ ws, 0 ≤ w ∧ w ≤ 1) (hsum : ws.sum = 1) :
    (∀ p ∈ mppParts (n : ℚ) ws 0, 0 ≤ p) ∧
    (mppRetained (n : ℚ) ws).sum = (n : Int) := by
  have hw0 : ∀ w ∈ ws, 0 ≤ w := fun w h => (hw w h).1
  have hA : (0 : ℚ) ≤ (n : ℚ) := by positivity
  have hnn := mppParts_nonneg (n : ℚ) hA ws hw0 0 (by norm_num)
  refine ⟨hnn, ?_⟩
  have hs := mppParts_sum (n : ℚ) ws 0
  rw [hsum] at hs
  have hb := mppFinalCarry_bounds (n : ℚ) ws 0 (by norm_num) (by norm_num)
  have hfc : mppFinalCarry (n : ℚ) ws 0
      = (n : ℚ) - (((mppParts (n : ℚ) ws 0).sum : Int) : ℚ) := by
    have := hs
    linarith
  rw [hfc] at hb
  have h1 : (n : Int) - (mppParts (n : ℚ) ws 0).sum < 1 := by
    have hq : (((n : Int) - (mppParts (n : ℚ) ws 0).sum : Int) : ℚ) < 1 := by
      push_cast
      push_cast at hb
      linarith [hb.2]
    exact_mod_cast hq
  have h2 : (-1 : Int) < (n : Int) - (mppParts (n : ℚ) ws 0).sum := by
    have hq : (-1 : ℚ) < (((n : Int) - (mppParts (n : ℚ) ws 0).sum : Int) : ℚ) := by
      push_cast
      push_cast at hb
      linarith [hb.1]
    exact_mod_cast hq
  have hSn : (mppParts (n : ℚ) ws 0).sum = (n : Int) := by omega
  rw [mppRetained, sum_filter_pos_of_nonneg _ hnn, hSn]

/-- Concrete instantiation of the C3 theorem: invoice 333 sat across three
mints with weights `[1/2, 3/10, 1/5]`. -/
theorem mpp_allocation_exact_witness :
    (0 < 333) ∧
    ((∀ p ∈ mppParts ((333 : Nat) : ℚ) [1/2, 3/10, 1/5] 0, 0 ≤ p) ∧
     (mppRetained ((333 : Nat) : ℚ) [1/2, 3/10, 1/5]).sum = ((333 : Nat) : Int)) :=
  ⟨by norm_num,
   mpp_allocation_exact 333 (by norm_num) [1/2, 3/10, 1/5]
     (by intro w hw; simp at hw; rcases hw with rfl | rfl | rfl <;> norm_num)
     (by norm_num)⟩

/-! ### C7: the blocking latch of the quote operations -/

theorem meltQuote_latch_aux (activeUnit : String)
    (create : MeltQuotePayload → Except String MeltQuoteResponse)
    (s : PayInvoiceSession) (hb : s.blocking = false) :
    (meltQuote activeUnit create s).2.1.blocking = false ∧
    (∀ e, (meltQuote activeUnit create s).1 = Except.error e →
      (meltQuote activeUnit create s).2.1.meltQuote.error = e) := by
  unfold meltQuote
  rw [if_neg (by simp [hb])]
  dsimp only
  by_cases hreq : s.input.request = ""
  · simp [hreq, mqFail]
  · simp only [hreq, if_false]
    cases hc : create ⟨activeUnit, s.input.request, none⟩ with
    | error e => simp [hreq, hc, mqFail]
    | ok data =>
      cases ha : assertMintError data with
      | error e => simp [hreq, hc, ha, mqFail]
      | ok _ => simp [hreq, hc, ha]

theorem multiPathMeltQuotes_latch_aux (activeUnit : String)
    (multiMints : List MintId) (overallBalance : Int) (weights : List ℚ)
    (api : MintId → MeltQuotePayload → Except String MeltQuoteResponse)
    (s : PayInvoiceSession) (hb : s.blocking = false) :
    (multiPathMeltQuotes activeUnit multiMints overallBalance weights api s).2.1.blocking
      = false ∧
    (∀ e, (multiPathMeltQuotes activeUnit multiMints overallBalance weights api s).1
        = Except.error e →
      (multiPathMeltQuotes activeUnit multiMints overallBalance weights
        api s).2.1.multiPartMeltQuotes.error = e) := by
  unfold multiPathMeltQuotes
  rw [if_neg (by simp [hb])]
  dsimp only
  by_cases hreq : s.input.request = ""
  · simp [hreq, mpmqFail]
  · simp only [hreq, if_false]
    by_cases hmm0 : multiMints = []
    · simp [hmm0, mpmqFail]
    · simp only [hmm0, if_false]
      cases hinv : s.invoice with
      | none => simp [hinv, mpmqFail]
      | some inv =>
        by_cases hsat : inv.sat = 0
        · simp [hinv, hsat, mpmqFail]
        · simp only [hinv, hsat, if_false]
          by_cases hbal : overallBalance < inv.sat
          · simp [hbal, mpmqFail]
          · simp only [hbal, if_false]
            cases hr : (requestMeltQuotes api
                (mppPayloads activeUnit s.input.request (inv.sat : ℚ)
                  (multiMints.zip weights) 0)).1 with
            | error e => simp [hr, mpmqFail]
            | ok responses => simp [hr]

/-- C7: `meltQuote` and `multiPathMeltQuotes` fail immediately with
"already processing an melt quote." when the session's blocking latch is
already engaged, touching nothing and issuing no request; on every run
that starts with the latch clear — returning a quote or throwing — the
latch is clear again when the call completes, and a thrown error is stored
on the session for display. -/
theorem melt_quote_blocking_latch (activeUnit : String)
    (create : MeltQuotePayload → Except String MeltQuoteResponse)
    (multiMints : List MintId) (overallBalance : Int) (weights : List ℚ)
    (api : MintId → MeltQuotePayload → Except String MeltQuoteResponse)
    (s : PayInvoiceSession) :
    (s.blocking = true →
      meltQuote activeUnit create s
        = (Except.error "already processing an melt quote.", s, []) ∧
      multiPathMeltQuotes activeUnit multiMints overallBalance weights api s
        = (Except.error "already processing an melt quote.", s, [])) ∧
    (s.blocking = false →
      (meltQuote activeUnit create s).2.1.blocking = false ∧
      (∀ e, (meltQuote activeUnit create s).1 = Except.error e →
        (meltQuote activeUnit create s).2.1.meltQuote.error = e) ∧
      (multiPathMeltQuotes activeUnit multiMints overallBalance weights
        api s).2.1.blocking = false ∧
      (∀ e, (multiPathMeltQuotes activeUnit multiMints overallBalance weights
          api s).1 = Except.error e →
        (multiPathMeltQuotes activeUnit multiMints overallBalance weights
          api s).2.1.multiPartMeltQuotes.error = e)) := by
  constructor
  · intro hb
    constructor
    · unfold meltQuote
      rw [if_pos (by simp [hb])]
    · unfold multiPathMeltQuotes
      rw [if_pos (by simp [hb])]
  · intro hb
    have h1 := meltQuote_latch_aux activeUnit create s hb
    have h2 := multiPathMeltQuotes_latch_aux activeUnit multiMints overallBalance
      weights api s hb
    exact ⟨h1.1, h1.2, h2.1, h2.2⟩

/-- A melt-quote API stub that always fails. -/
def apiDown : MeltQuotePayload → Except String MeltQuoteResponse :=
  fun _ => Except.error "net down"

/-- A per-mint melt-quote API stub that always fails. -/
def mintApiDown : MintId → MeltQuotePayload → Except String MeltQuoteResponse :=
  fun _ _ => Except.error "net down"

/-- The session with the blocking latch already engaged. -/
def sBlocked : PayInvoiceSession := { initSession with blocking := true }

/-- Concrete instantiation of the C7 theorem: a latched session is rejected
untouched with no request issued, and a clear session ends with the latch
clear. -/
theorem melt_quote_blocking_latch_witness :
    meltQuote "sat" apiDown sBlocked
      = (Except.error "already processing an melt quote.", sBlocked, []) ∧
    (meltQuote "sat" apiDown initSession).2.1.blocking = false :=
  ⟨((melt_quote_blocking_latch "sat" apiDown [] 0 [] mintApiDown sBlocked).1
      rfl).1,
   ((melt_quote_blocking_latch "sat" apiDown [] 0 [] mintApiDown initSession).2
      rfl).1⟩

/-! ### C8: the "outputs have already been signed" counter jump -/

/-- `setReserved` only toggles flags: the stored secrets are unchanged. -/
theorem setReserved_secrets (store ps : List WalletProof) (r : Bool)
    (q : Option String) :
    (setReserved store ps r q).map (fun p => p.secret)
      = store.map (fun p => p.secret) := by
  unfold setReserved
  rw [List.map_map]
  apply List.map_congr_left
  intro p _
  dsimp only [Function.comp]
  split <;> rfl

theorem spendableProofs_error_msg (P : List WalletProof) (a : Int) (e : String)
    (h : spendableProofs P a = Except.error e) : e = "Balance too low" := by
  unfold spendableProofs at h
  dsimp only at h
  split at h
  · cases h
    rfl
  · cases h

theorem counterOf_handleOutputs_match (cs : List KeysetCounter) (kid e : String)
    (hm : msgIncludes e outputsSignedMsg = true)
    (hf : (lookupCounter cs kid).isSome) :
    counterOf (handleOutputsHaveAlreadyBeenSignedError cs kid e) kid
      = counterOf cs kid + 10 := by
  unfold handleOutputsHaveAlreadyBeenSignedError
  rw [if_pos hm]
  exact counterOf_increase_of_found cs kid 10 hf

/-- A run that returned `Except.ok` cannot equal an error result. -/
theorem pair_ok_ne_error {α β σ : Type _} {a : α} {e : β} {s s' : σ} {C : Prop}
    (h : ((Except.ok a : Except β α), s) = (Except.error e, s')) : C :=
  absurd (congrArg Prod.fst h) (by simp)

/-- Landing in `sendCatch` after the `keysetCounter` read, with a matching
error message, bumps the counter by exactly 10 over its start-of-call read
value and only toggles reservation flags in the store. -/
theorem send_catch_after_read (st : WalletState) (keysetId e1 e : String)
    (pts : List WalletProof) (st' : WalletState)
    (h : sendCatch keysetId e1 pts
      { st with keysetCounters := (keysetCounter st.keysetCounters keysetId).2 }
      = (Except.error e, st'))
    (hm : msgIncludes e outputsSignedMsg = true) :
    counterOf st'.keysetCounters keysetId
      = counterOf st.keysetCounters keysetId + 10 ∧
    st'.proofs.map (fun p => p.secret) = st.proofs.map (fun p => p.secret) := by
  unfold sendCatch at h
  dsimp only at h
  rw [Prod.mk.injEq] at h
  obtain ⟨he, hst⟩ := h
  rw [Except.error.injEq] at he
  subst he
  rw [← hst]
  refine ⟨?_, setReserved_secrets _ _ _ _⟩
  dsimp only
  rw [counterOf_handleOutputs_match _ _ _ hm]
  · rw [counterOf_eq_lookup, lookupCounter_keysetCounter_snd]
    rfl
  · rw [lookupCounter_keysetCounter_snd]
    rfl

theorem send_outputs_signed_aux (O : SendOracles) (keysetId : String)
    (proofs : List WalletProof) (amount : Int) (invalidate includeFees : Bool)
    (st : WalletState) (e : String) (st' : WalletState)
    (hrun : send O keysetId proofs amount invalidate includeFees st
      = (Except.error e, st'))
    (hm : msgIncludes e outputsSignedMsg = true) :
    counterOf st'.keysetCounters keysetId
      = counterOf st.keysetCounters keysetId + 10 ∧
    st'.proofs.map (fun p => p.secret) = st.proofs.map (fun p => p.secret) := by
  unfold send at hrun
  cases hsp : spendableProofs proofs amount with
  | error e0 =>
    rw [hsp] at hrun
    have he0 := spendableProofs_error_msg proofs amount e0 hsp
    simp only [sendCatch, Prod.mk.injEq, Except.error.injEq] at hrun
    rw [← hrun.1, he0] at hm
    exact absurd hm (by decide)
  | ok spendable =>
    rw [hsp] at hrun
    dsimp only at hrun
    split at hrun <;>
      [skip; skip] <;>
    split at hrun <;>
      first
      | exact pair_ok_ne_error hrun
      | (split at hrun <;>
          first
          | exact pair_ok_ne_error hrun
          | exact send_catch_after_read st keysetId _ e _ st' hrun hm)

theorem mint_outputs_signed_aux (O : MintOracles) (keysetId : String)
    (amount : Int) (hash activeUnit activeMintUrl : String)
    (st : WalletState) (e : String) (st' : WalletState)
    (hq : ∀ e0, O.checkMintQuote = Except.error e0 →
      msgIncludes e0 outputsSignedMsg = false)
    (hrun : mint O keysetId amount hash activeUnit activeMintUrl st
      = (Except.error e, st'))
    (hm : msgIncludes e outputsSignedMsg = true) :
    counterOf st'.keysetCounters keysetId
      = counterOf st.keysetCounters keysetId + 10 ∧
    st'.proofs.map (fun p => p.secret) = st.proofs.map (fun p => p.secret) := by
  unfold mint at hrun
  cases hcq : O.checkMintQuote with
  | error e0 =>
    rw [hcq] at hrun
    simp only [mintCatch, Prod.mk.injEq, Except.error.injEq] at hrun
    rw [← hrun.1] at hm
    rw [hq e0 hcq] at hm
    cases hm
  | ok state =>
    rw [hcq] at hrun
    dsimp only at hrun
    split at hrun
    · -- quote not PAID
      simp only [mintCatch, Prod.mk.injEq, Except.error.injEq] at hrun
      rw [← hrun.1] at hm
      exact absurd hm (by decide)
    · cases hmp : O.mintProofs (keysetCounter st.keysetCounters keysetId).1 with
      | error e1 =>
        rw [hmp] at hrun
        simp only [mintCatch, Prod.mk.injEq, Except.error.injEq] at hrun
        obtain ⟨he, hst⟩ := hrun
        subst he
        rw [← hst]
        constructor
        · dsimp only
          rw [counterOf_handleOutputs_match _ _ _ hm]
          · rw [counterOf_eq_lookup, lookupCounter_keysetCounter_snd]
            rfl
          · rw [lookupCounter_keysetCounter_snd]
            rfl
        · rfl
      | ok minted =>
        rw [hmp] at hrun
        dsimp only at hrun
        split at hrun
        · -- proofs.length = 0 → "could not mint"
          simp only [mintCatch, Prod.mk.injEq, Except.error.injEq] at hrun
          rw [← hrun.1] at hm
          exact absurd hm (by decide)
        · cases hser : O.serializeProofs minted with
          | none =>
            rw [hser] at hrun
            simp only [mintCatch, Prod.mk.injEq, Except.error.injEq] at hrun
            rw [← hrun.1] at hm
            exact absurd hm (by decide)
          | some ser =>
            rw [hser] at hrun
            simp at hrun

/-- C8: a `send` or `mint` call that fails with an error whose message
contains "outputs have already been signed" leaves the keyset's counter
exactly 10 above the value a read reported at the start of the call, and
neither adds proofs to nor removes proofs from the store.  For `mint`, the
preliminary quote-state check is assumed not to produce that message
itself (it is a state read, not a signing operation). -/
theorem outputs_signed_counter_jump :
    (∀ (O : SendOracles) (keysetId : String) (proofs : List WalletProof)
       (amount : Int) (invalidate includeFees : Bool) (st : WalletState)
       (e : String) (st' : WalletState),
       send O keysetId proofs amount invalidate includeFees st
         = (Except.error e, st') →
       msgIncludes e outputsSignedMsg = true →
       counterOf st'.keysetCounters keysetId
         = counterOf st.keysetCounters keysetId + 10 ∧
       st'.proofs.map (fun p => p.secret) = st.proofs.map (fun p => p.secret)) ∧
    (∀ (O : MintOracles) (keysetId : String) (amount : Int)
       (hash activeUnit activeMintUrl : String) (st : WalletState)
       (e : String) (st' : WalletState),
       (∀ e0, O.checkMintQuote = Except.error e0 →
         msgIncludes e0 outputsSignedMsg = false) →
       mint O keysetId amount hash activeUnit activeMintUrl st
         = (Except.error e, st') →
       msgIncludes e outputsSignedMsg = true →
       counterOf st'.keysetCounters keysetId
         = counterOf st.keysetCounters keysetId + 10 ∧
       st'.proofs.map (fun p => p.secret) = st.proofs.map (fun p => p.secret)) :=
  ⟨fun O kid proofs amount inv fees st e st' hrun hm =>
     send_outputs_signed_aux O kid proofs amount inv fees st e st' hrun hm,
   fun O kid amount hash u m st e st' hq hrun hm =>
     mint_outputs_signed_aux O kid amount hash u m st e st' hq hrun hm⟩

/-- A sample unreserved proof of amount 4. -/
def p1 : WalletProof := ⟨4, "s1", "ks", false, none⟩

/-- Start state for the C8 send witness: keyset "ks" at counter 5. -/
def st0 : WalletState := ⟨[⟨"ks", 5⟩], [p1], [], []⟩

/-- The error a mint raises on re-signed outputs. -/
def magicErr : String := "Mint error: outputs have already been signed"

/-- Send oracles whose swap call always fails with the re-signed message. -/
def sendO0 : SendOracles :=
  ⟨selAll, fun _ => 0, fun _ _ _ => Except.error magicErr⟩

/-- Mint oracles: quote paid, but the signing call fails with the
re-signed message. -/
def mintO0 : MintOracles :=
  ⟨Except.ok MintQuoteState.PAID, fun _ => Except.error magicErr, fun _ => none⟩

/-- Start state for the C8 mint witness: keyset "km" at counter 7. -/
def stM0 : WalletState := ⟨[⟨"km", 7⟩], [p1], [], []⟩

/-- End state of the failing send run: counter jumped to 15, store intact. -/
def st1 : WalletState := ⟨[⟨"ks", 15⟩], [p1], [], []⟩

/-- End state of the failing mint run: counter jumped to 17, store intact. -/
def stM1 : WalletState := ⟨[⟨"km", 17⟩], [p1], [], []⟩

/-- Concrete instantiation of the C8 theorem: a failing send on keyset
"ks" (counter 5) and a failing mint on keyset "km" (counter 7), both with
the re-signed error, land exactly 10 higher with untouched stores. -/
theorem outputs_signed_counter_jump_witness :
    (counterOf st1.keysetCounters "ks" = counterOf st0.keysetCounters "ks" + 10 ∧
     st1.proofs.map (fun p => p.secret) = st0.proofs.map (fun p => p.secret)) ∧
    (counterOf stM1.keysetCounters "km" = counterOf stM0.keysetCounters "km" + 10 ∧
     stM1.proofs.map (fun p => p.secret) = stM0.proofs.map (fun p => p.secret)) :=
  ⟨outputs_signed_counter_jump.1 sendO0 "ks" [p1] 3 false false st0 magicErr st1
     rfl (by decide),
   outputs_signed_counter_jump.2 mintO0 "km" 3 "h" "sat" "https://m" stM0 magicErr
     stM1 (fun e0 h => nomatch h) rfl (by decide)⟩

/-! ### C1: melt rollback -/

/-- The send proof consumed by the melt run. -/
def pMelt : WalletProof := ⟨4, "sm", "k", false, none⟩

/-- Start state for the melt run: keyset "k" at counter 5. -/
def meltSt0 : WalletState := ⟨[⟨"k", 5⟩], [pMelt], [], []⟩

/-- The melt quote being paid: 10 sat plus a fee reserve of 2. -/
def meltQ : MeltQuoteResponse := ⟨"q1", 10, 2, MeltQuoteState.UNPAID, none⟩

/-- A melt run that ends in rollback: `meltProofs` throws "boom", the app
is not unloading, and the re-queried quote state is UNPAID. -/
def meltRun : Except String MeltResult × PayInvoiceSession × WalletState :=
  meltAfterSend false (fun _ => Except.error "boom")
    (Except.ok MeltQuoteState.UNPAID) (fun _ => "ser")
    "https://m" "sat" "2026-01-01" meltQ [pMelt] "k" initSession meltSt0

/-- C1 (code bug): on the fully rolled-back melt above, the send proofs are
unreserved again and the pending invoice-history entry for the quote is
gone, but the keyset counter ends at start + |sendProofs| (6 = 5 + 1), not
at its start value: the rollback variable `keysetCounterIncrease` only ever
accumulates the change-output bump (`wallet.ts` lines 808-813), so the
`|sendProofs|` bump is never reversed and the net counter change is not 0. -/
theorem melt_rollback_counter_divergence :
    (∀ p ∈ (meltRun.2.2).proofs, p.reserved = false) ∧
    ((meltRun.2.2).invoiceHistory.filter (fun i => i.quote = "q1")) = [] ∧
    counterOf (meltRun.2.2).keysetCounters "k"
      = counterOf meltSt0.keysetCounters "k" + 1 ∧
    counterOf (meltRun.2.2).keysetCounters "k"
      ≠ counterOf meltSt0.keysetCounters "k" := by
  refine ⟨by decide, by decide, by decide, by decide⟩

end CashuWallet
